import Mathlib

/-!
Verification of the FAQ-injection pipeline of `scripts/inject-faqs.js`
(creatinepedia): the H2-section extractor, the heading-to-question
classifier, the idempotent strip/re-inject rewrite, and the per-file
batch loop.

The JavaScript is embedded shallowly over `List Char`:

* JS strings are `List Char` (wrapped in `String` at the API surface);
  `String.prototype.length` is list length (all inputs of interest are
  in the BMP, where JS code-unit length agrees with character count).
* `String.prototype.toLowerCase` is modelled per-character for ASCII
  (`lowerChar`); every string the pipeline matches against is ASCII.
* Each regular expression of the script is compiled, by hand, to a
  deterministic scanner that follows JavaScript leftmost-match /
  greedy-quantifier / backtracking semantics for that particular
  pattern.  `\s` is the JS whitespace class, `\b` the JS word
  boundary over `[A-Za-z0-9_]`, `.` excludes line terminators, and a
  string-pattern `replace` splices at the first occurrence
  (the `$`-substitution forms in replacement strings do not arise in
  any input considered here).
* Scanners recurse on strict suffixes; they take an explicit fuel
  argument (`length + 1` at the wrapper) so that they are structurally
  recursive and evaluate inside the kernel.
-/

/-- JS `\s` character class (WhiteSpace plus LineTerminator). -/
def jsWhitespace (c : Char) : Bool :=
  c == ' ' || c == '\t' || c == '\n' || c == '\r' || c == '\x0b' || c == '\x0c' ||
  c == '\u00A0' || c == '\u1680' || ('\u2000' ≤ c && c ≤ '\u200A') ||
  c == '\u2028' || c == '\u2029' || c == '\u202F' || c == '\u205F' ||
  c == '\u3000' || c == '\uFEFF'

/-- JS word character (for `\b`): `[A-Za-z0-9_]`. -/
def isWordChar (c : Char) : Bool :=
  ('a' ≤ c && c ≤ 'z') || ('A' ≤ c && c ≤ 'Z') || ('0' ≤ c && c ≤ '9') || c == '_'

/-- JS `.` (in a regex without the `s` flag): any char except a line terminator. -/
def jsDotOk (c : Char) : Bool :=
  !(c == '\n' || c == '\r' || c == '\u2028' || c == '\u2029')

/-- ASCII case-mapping pairs for `toLowerCase` ('A'-'Z' to 'a'-'z'). -/
def asciiCase : List (Char × Char) :=
  [('A', 'a'), ('B', 'b'), ('C', 'c'), ('D', 'd'), ('E', 'e'), ('F', 'f'),
   ('G', 'g'), ('H', 'h'), ('I', 'i'), ('J', 'j'), ('K', 'k'), ('L', 'l'),
   ('M', 'm'), ('N', 'n'), ('O', 'o'), ('P', 'p'), ('Q', 'q'), ('R', 'r'),
   ('S', 's'), ('T', 't'), ('U', 'u'), ('V', 'v'), ('W', 'w'), ('X', 'x'),
   ('Y', 'y'), ('Z', 'z')]

/-- Per-character model of JS `toLowerCase` (ASCII range): uppercase
letters map to their lowercase pair, everything else is unchanged. -/
def lowerChar (c : Char) : Char :=
  if c < 'A' then c
  else if 'Z' < c then c
  else
    match asciiCase.find? (fun p => p.1 == c) with
    | some p => p.2
    | none => c

/-- JS `String.prototype.trim`: drop JS whitespace from both ends. -/
def jsTrim (l : List Char) : List Char :=
  ((l.dropWhile jsWhitespace).reverse.dropWhile jsWhitespace).reverse

/-- Head character is JS whitespace. -/
def headIsWs : List Char → Bool
  | [] => false
  | c :: _ => jsWhitespace c

/-- Nonempty and the last character is not JS whitespace. -/
def lastNotWs (l : List Char) : Bool :=
  match l.getLast? with
  | some c => !jsWhitespace c
  | none => false

/-- Prefix test under a character normalisation (`id` for a case-sensitive
pattern, `lowerChar` for an `i`-flagged one; the pattern is pre-normalised). -/
def startsWithL (norm : Char → Char) : List Char → List Char → Bool
  | [], _ => true
  | _ :: _, [] => false
  | p :: ps, c :: cs => p == norm c && startsWithL norm ps cs

/-- Scanner for the first (leftmost) occurrence of a literal pattern;
`acc` accumulates the reversed prefix (tail recursion keeps kernel
reduction shallow). -/
def splitFirstGo (norm : Char → Char) (pat : List Char) : List Char → List Char → Option (List Char × List Char)
  | _, [] => none
  | acc, c :: rest =>
    if startsWithL norm pat (c :: rest) then some (acc.reverse, (c :: rest).drop pat.length)
    else splitFirstGo norm pat (c :: acc) rest

/-- Split a subject at the first (leftmost) occurrence of a literal pattern:
returns the part before the occurrence and the part after it. -/
def splitFirstL (norm : Char → Char) (pat s : List Char) : Option (List Char × List Char) :=
  splitFirstGo norm pat [] s

/-- Substring test (JS `regex.test` for a literal-alternation pattern). -/
def containsL (norm : Char → Char) (pat : List Char) (s : List Char) : Bool :=
  (splitFirstL norm pat s).isSome

/-- JS `String.prototype.replace` with a string pattern: splice at the first
occurrence (replacement taken literally; see header note on `$`). -/
def replaceFirstL (pat repl s : List Char) : List Char :=
  match splitFirstL id pat s with
  | some (b, a) => b ++ repl ++ a
  | none => s

/-! ## Heading classifier (`headingToQuestion`, lines 69-119 of inject-faqs.js) -/

/-- Lowercased, trimmed heading: `heading.toLowerCase().trim()`. -/
def lowerTrim (l : List Char) : List Char :=
  jsTrim (l.map lowerChar)

/-- JS `h.endsWith('?')`. -/
def endsWithQ (l : List Char) : Bool :=
  l.getLast? == some '?'

/-- Strip a leading article: `heading.replace(/^(the|an?)\s+/i, '')`.
The alternation tries `the`, then `an`, then `a`, each requiring at least
one following whitespace character; the greedy `\s+` removes the whole run. -/
def stripLeadingArticle (l : List Char) : List Char :=
  let low := l.map lowerChar
  if low.take 3 == ("the").data && headIsWs (l.drop 3) then
    (l.drop 3).dropWhile jsWhitespace
  else if low.take 2 == ("an").data && headIsWs (l.drop 2) then
    (l.drop 2).dropWhile jsWhitespace
  else if low.take 1 == ("a").data && headIsWs (l.drop 1) then
    (l.drop 1).dropWhile jsWhitespace
  else l

/-- Does `\s*[:–—]\s*.*$` match starting exactly here?  The greedy `\s*`
must reach a colon / en dash / em dash, and the remainder after the dash
must decompose as whitespace followed by line-terminator-free text (the
only way `\s*.*$` completes, checked at the maximal whitespace split). -/
def subtitleAt (s : List Char) : Bool :=
  match s.dropWhile jsWhitespace with
  | [] => false
  | c :: tail =>
    (c == ':' || c == '–' || c == '—') &&
      (tail.dropWhile jsWhitespace).all jsDotOk

/-- Strip a subtitle: `.replace(/\s*[:–—]\s*.*$/, '')` — truncate at the
leftmost position where the pattern matches (the match always extends to
the end of the string). -/
def stripSubtitle : List Char → List Char
  | [] => []
  | c :: rest =>
    if subtitleAt (c :: rest) then [] else c :: stripSubtitle rest

/-- Cleaned heading: article stripped, then subtitle stripped (`cleaned`). -/
def cleanedOf (l : List Char) : List Char :=
  stripSubtitle (stripLeadingArticle l)

/-- Lowercase cleaned heading (`lc = cleaned.toLowerCase()`). -/
def cleanedLower (l : List Char) : List Char :=
  (cleanedOf l).map lowerChar

/-- Interrogative-start test: `/^(how|what|why|when|where|which|does|is|can|should|do)\s/i`. -/
def interrogativeWords : List (List Char) :=
  [("how").data, ("what").data, ("why").data, ("when").data, ("where").data,
   ("which").data, ("does").data, ("is").data, ("can").data, ("should").data, ("do").data]

/-- Does the (already lowercased) subject start with an interrogative word
followed by one whitespace character? -/
def startsInterrogative (h : List Char) : Bool :=
  interrogativeWords.any (fun w => h.take w.length == w && headIsWs (h.drop w.length))

/-- Whole-word occurrence at the head of `s`: the word, then end of string
or a non-word character (the trailing `\b`). -/
def wholeWordAt (w s : List Char) : Bool :=
  startsWithL id w s &&
    (match s.drop w.length with
     | [] => true
     | d :: _ => !isWordChar d)

/-- Scan for a `\b`-delimited occurrence of `w`; `prevWord` records whether
the previous character was a word character (the leading `\b`). -/
def containsWholeWordGo (w : List Char) : Bool → List Char → Bool
  | _, [] => false
  | prevWord, c :: rest =>
    ((!prevWord) && wholeWordAt w (c :: rest)) || containsWholeWordGo w (isWordChar c) rest

/-- JS `/\bw\b/.test(s)` for a literal word `w`. -/
def containsWholeWord (w s : List Char) : Bool :=
  containsWholeWordGo w false s

/-- Comparison test: `/\bvs\.?\b|versus|compared/i`.  For the boolean test
`\bvs\.?\b` is equivalent to a whole-word `vs` (if the character after
`vs` is a word character the optional dot cannot help, and if it is not,
the dot-free branch already matches). -/
def vsTest (h : List Char) : Bool :=
  containsWholeWord ("vs").data h || containsL id ("versus").data h ||
    containsL id ("compared").data h

/-- Action-verb vocabulary, each alternative `\b`-delimited. -/
def actionWords : List (List Char) :=
  [("effect").data, ("impact").data, ("influence").data, ("affect").data,
   ("interact").data, ("deplet").data, ("resynthes").data, ("recover").data,
   ("adapt").data, ("respond").data, ("contribut").data, ("work").data]

/-- `/\b(effect|impact|influence|affect|interact|deplet|resynthes|recover|adapt|respond|contribut|work)\b/i`. -/
def actionTest (h : List Char) : Bool :=
  actionWords.any (fun w => containsWholeWord w h)

/-- Plural-noun vocabulary, each alternative `\b`-delimited. -/
def pluralWords : List (List Char) :=
  [("benefits").data, ("advantages").data, ("risks").data, ("dangers").data,
   ("side effects").data, ("concerns").data, ("differences").data, ("types").data,
   ("forms").data, ("factors").data, ("contributions").data, ("strategies").data,
   ("recommendations").data, ("guidelines").data, ("considerations").data]

/-- `/\b(benefits|advantages|risks|dangers|side effects|concerns|differences|types|forms|factors|contributions|strategies|recommendations|guidelines|considerations)\b/i`. -/
def pluralTest (h : List Char) : Bool :=
  pluralWords.any (fun w => containsWholeWord w h)

/-- `/\band\b/i`. -/
def andTest (h : List Char) : Bool :=
  containsWholeWord ("and").data h

/-- Rule 7's exclusion: `/dosing|dose|protocol/i` (plain substring test). -/
def dosingExcl (h : List Char) : Bool :=
  containsL id ("dosing").data h || containsL id ("dose").data h ||
    containsL id ("protocol").data h

/-- Rule 8's vocabulary: `/dosing|dose|protocol|timing|loading|cycle|schedul/i`. -/
def dosingVocab (h : List Char) : Bool :=
  containsL id ("dosing").data h || containsL id ("dose").data h ||
    containsL id ("protocol").data h || containsL id ("timing").data h ||
    containsL id ("loading").data h || containsL id ("cycle").data h ||
    containsL id ("schedul").data h

/-- Rule 9's vocabulary: `/safe|kidney|liver|hair|blood|heart|health/i`. -/
def safetyTest (h : List Char) : Bool :=
  containsL id ("safe").data h || containsL id ("kidney").data h ||
    containsL id ("liver").data h || containsL id ("hair").data h ||
    containsL id ("blood").data h || containsL id ("heart").data h ||
    containsL id ("health").data h

/-- The classifier `headingToQuestion(heading, category)` on character
lists.  Rule order follows the source exactly; all tests run on the
lowercased trimmed heading `h`, all substitutions use the lowercase
cleaned form `lc`.  (The source never reads `category`.) -/
def headingToQuestionL (heading : List Char) : List Char :=
  let h := lowerTrim heading
  if endsWithQ h then heading
  else
    let lc := cleanedLower heading
    if startsInterrogative h then heading ++ ("?").data
    else if vsTest h then ("How does ").data ++ lc ++ (" compare?").data
    else if actionTest h then ("How does ").data ++ lc ++ (" work?").data
    else if pluralTest h then ("What are the ").data ++ lc ++ ("?").data
    else if andTest h && !dosingExcl h then
      ("What is the relationship between ").data ++ lc ++ ("?").data
    else if dosingVocab h then ("What is the recommended ").data ++ lc ++ ("?").data
    else if safetyTest h then ("Is ").data ++ lc ++ (" safe?").data
    else ("What is the ").data ++ lc ++ ("?").data

/-- String-level wrapper with the source signature. -/
def headingToQuestion (heading category : String) : String :=
  ⟨headingToQuestionL heading.data⟩


/-! ## Fragment extractor (`stripTags`, `extractH2Sections`, lines 28-67) -/

/-- One pass of the global replace `/<[^>]+>/g` (→ `''`).  At a `<` the
greedy `[^>]+` must reach a `>` with at least one character in between;
on success scanning resumes after the `>`, on failure (nothing between,
or no `>` at all) the `<` survives and scanning advances one character. -/
def stripTagsGo : List Char → List Char → List Char
  | _, [] => []
  | [], l => l
  | _ :: fs, c :: rest =>
    if c == '<' then
      let body := rest.takeWhile (fun d => !(d == '>'))
      if body.isEmpty then c :: stripTagsGo fs rest
      else
        match rest.drop body.length with
        | [] => c :: stripTagsGo fs rest
        | _ :: afterGt => stripTagsGo fs afterGt
    else c :: stripTagsGo fs rest

/-- `stripTags(html)`: remove markup tags, then `trim()`. -/
def stripTags (l : List Char) : List Char :=
  jsTrim (stripTagsGo l l)

/-- Match `openLit[^>]*>([\s\S]*?)closeLit` at its leftmost position;
returns the lazy capture and the remainder after the close literal.
If the first occurrence of `openLit` has no later `>` or no later
`closeLit`, no later occurrence can complete either, so the whole
pattern fails. -/
def tagMatch (norm : Char → Char) (openLit closeLit s : List Char) :
    Option (List Char × List Char) :=
  match splitFirstL norm openLit s with
  | none => none
  | some (_, afterOpen) =>
    match afterOpen.dropWhile (fun d => !(d == '>')) with
    | [] => none
    | _ :: afterGt =>
      match splitFirstL norm closeLit afterGt with
      | none => none
      | some (g1, rest) => some (g1, rest)

/-- The lookahead `(?=<h2|<\/article>|<section class="references|<div class="cta-box|$)`
(case-insensitive), checked at one position. -/
def h2Boundary (s : List Char) : Bool :=
  startsWithL lowerChar ("<h2").data s ||
  startsWithL lowerChar ("</article>").data s ||
  startsWithL lowerChar ("<section class=\"references").data s ||
  startsWithL lowerChar ("<div class=\"cta-box").data s

/-- Scanner for the nearest boundary position; `acc` accumulates the
reversed captured content. -/
def splitBoundaryGo : List Char → List Char → List Char × List Char
  | acc, [] => (acc.reverse, [])
  | acc, c :: rest =>
    if h2Boundary (c :: rest) then (acc.reverse, c :: rest)
    else splitBoundaryGo (c :: acc) rest

/-- Lazy expansion of `([\s\S]*?)` up to the nearest boundary position
(`$`, the end, always matches, so the split always succeeds). -/
def splitBoundary (s : List Char) : List Char × List Char :=
  splitBoundaryGo [] s

/-- The `while ((match = h2Regex.exec(articleHtml)) !== null)` scan:
each iteration matches
`/<h2[^>]*>([\s\S]*?)<\/h2>([\s\S]*?)(?=<h2|<\/article>|<section class="references|<div class="cta-box|$)/gi`
and resumes at the end of the (zero-width-terminated) match. -/
def h2ScanGo : List Char → List Char → List (List Char × List Char)
  | [], _ => []
  | _ :: fs, html =>
    match tagMatch lowerChar ("<h2").data ("</h2>").data html with
    | none => []
    | some (g1, afterClose) =>
      (g1, (splitBoundary afterClose).1) :: h2ScanGo fs (splitBoundary afterClose).2

/-- All raw `(heading-markup, captured-content)` pairs of the H2 scan. -/
def h2Scan (html : List Char) : List (List Char × List Char) :=
  h2ScanGo html html

/-- First paragraph: `content.match(/<p[^>]*>([\s\S]*?)<\/p>/)` (case-sensitive). -/
def firstPara (content : List Char) : Option (List Char) :=
  (tagMatch id ("<p").data ("</p>").data content).map Prod.fst

/-- Drop test `/references|bibliography|sources|citations/i.test(heading)`. -/
def bannedRef (heading : List Char) : Bool :=
  containsL lowerChar ("references").data heading ||
  containsL lowerChar ("bibliography").data heading ||
  containsL lowerChar ("sources").data heading ||
  containsL lowerChar ("citations").data heading

/-- Drop test `/frequently asked|faq/i.test(heading)`. -/
def bannedFaq (heading : List Char) : Bool :=
  containsL lowerChar ("frequently asked").data heading ||
  containsL lowerChar ("faq").data heading

/-- One extracted section: plain-text heading and first-paragraph answer. -/
structure Section where
  heading : String
  answer : String
deriving DecidableEq

/-- The loop body of `extractH2Sections`, fuelled.  Each H2 match is
processed exactly as in the source: strip and trim the heading, skip
references/bibliography and FAQ headings, take the first paragraph of
the captured content, strip and trim it, and keep it only when its
length is strictly greater than 30. -/
def extractGo : List Char → List Char → List Section
  | [], _ => []
  | _ :: fs, articleHtml =>
    match tagMatch lowerChar ("<h2").data ("</h2>").data articleHtml with
    | none => []
    | some (g1, afterClose) =>
      let heading := jsTrim (stripTags g1)
      if bannedRef heading then extractGo fs (splitBoundary afterClose).2
      else if bannedFaq heading then extractGo fs (splitBoundary afterClose).2
      else
        match firstPara (splitBoundary afterClose).1 with
        | none => extractGo fs (splitBoundary afterClose).2
        | some para =>
          let answer := jsTrim (stripTags para)
          if 30 < answer.length then
            ⟨⟨heading⟩, ⟨answer⟩⟩ :: extractGo fs (splitBoundary afterClose).2
          else extractGo fs (splitBoundary afterClose).2

/-- `extractH2Sections(articleHtml)`. -/
def extractH2Sections (articleHtml : List Char) : List Section :=
  extractGo articleHtml articleHtml


/-! ## FAQ rendering and idempotent strip (`buildFaqHtml`, `buildFaqSchema`,
`stripExistingFaq`, lines 121-158) -/

/-- One question/answer pair. -/
structure QAPair where
  question : String
  answer : String
deriving DecidableEq

/-- One `faq-item` block of the template literal in `buildFaqHtml`. -/
def faqItem (qa : QAPair) : List Char :=
  ("\n        <div class=\"faq-item\">\n          <h3>").data ++ qa.question.data ++
  ("</h3>\n          <p>").data ++ qa.answer.data ++
  ("</p>\n        </div>").data

/-- `buildFaqHtml(qaPairs)`: the visible FAQ section markup. -/
def buildFaqHtml (qaPairs : List QAPair) : List Char :=
  ("\n      <section class=\"faq-section\">\n        <h2>Frequently Asked Questions</h2>\n        ").data ++
  (qaPairs.map faqItem).flatten ++
  ("\n      </section>").data

/-- Hex digit (lowercase) for `JSON.stringify` control-character escapes. -/
def hexDigit (n : Nat) : Char :=
  if n < 10 then Char.ofNat (48 + n) else Char.ofNat (87 + n)

/-- `JSON.stringify` escaping of one character inside a string literal. -/
def jsonEscapeChar (c : Char) : List Char :=
  if c == '"' then ['\\', '"']
  else if c == '\\' then ['\\', '\\']
  else if c == '\n' then ['\\', 'n']
  else if c == '\r' then ['\\', 'r']
  else if c == '\t' then ['\\', 't']
  else if c == '\x08' then ['\\', 'b']
  else if c == '\x0c' then ['\\', 'f']
  else if c.toNat < 32 then
    ['\\', 'u', '0', '0', hexDigit (c.toNat / 16), hexDigit (c.toNat % 16)]
  else [c]

/-- `JSON.stringify` escaping of a string body. -/
def jsonEscape (l : List Char) : List Char :=
  (l.map jsonEscapeChar).flatten

/-- One `mainEntity` entry as laid out by `JSON.stringify(…, null, 2)`. -/
def schemaEntry (qa : QAPair) : List Char :=
  ("    \x7b\n      \"@type\": \"Question\",\n      \"name\": \"").data ++
  jsonEscape qa.question.data ++
  ("\",\n      \"acceptedAnswer\": \x7b\n        \"@type\": \"Answer\",\n        \"text\": \"").data ++
  jsonEscape qa.answer.data ++
  ("\"\n      \x7d\n    \x7d").data

/-- `buildFaqSchema(qaPairs, url)`: `JSON.stringify` of the FAQPage object
with two-space indentation (the `url` parameter is unused in the source). -/
def buildFaqSchema (qaPairs : List QAPair) (url : List Char) : List Char :=
  if qaPairs.isEmpty then
    ("\x7b\n  \"@context\": \"https://schema.org\",\n  \"@type\": \"FAQPage\",\n  \"mainEntity\": []\n\x7d").data
  else
    ("\x7b\n  \"@context\": \"https://schema.org\",\n  \"@type\": \"FAQPage\",\n  \"mainEntity\": [\n").data ++
    List.intercalate (",\n").data (qaPairs.map schemaEntry) ++
    ("\n  ]\n\x7d").data

/-- One pass of `/\s*<section class="faq-section">[\s\S]*?<\/section>/g`
(→ `''`).  A match starts at the beginning of the whitespace run leading
to the literal section opener and extends through the first `</section>`;
scanning resumes after the removed block. -/
def stripFaqSectionsGo : List Char → List Char → List Char
  | _, [] => []
  | [], l => l
  | _ :: fs, c :: rest =>
    let a1 := (c :: rest).dropWhile jsWhitespace
    if startsWithL id ("<section class=\"faq-section\">").data a1 then
      match splitFirstL id ("</section>").data (a1.drop 29) with
      | some (_, after) => stripFaqSectionsGo fs after
      | none => c :: stripFaqSectionsGo fs rest
    else c :: stripFaqSectionsGo fs rest

/-- Remove all existing visible FAQ blocks. -/
def stripFaqSections (l : List Char) : List Char :=
  stripFaqSectionsGo l l

/-- Find the lazy `[\s\S]*?"@type":\s*"FAQPage"` continuation: the first
position at which `"@type":` is followed (over a whitespace run) by
`"FAQPage"`; returns the remainder after `"FAQPage"`. -/
def findTypeFaq : List Char → List Char → Option (List Char)
  | _, [] => none
  | [], _ => none
  | _ :: fs, c :: rest =>
    let s := c :: rest
    if startsWithL id ("\"@type\":").data s &&
        startsWithL id ("\"FAQPage\"").data ((s.drop 8).dropWhile jsWhitespace) then
      some (((s.drop 8).dropWhile jsWhitespace).drop 9)
    else findTypeFaq fs rest

/-- Find the lazy `[\s\S]*?\}\s*<\/script>` continuation: the first `}`
followed (over a whitespace run) by `</script>`; returns the remainder
after `</script>`. -/
def findCloseScript : List Char → List Char → Option (List Char)
  | _, [] => none
  | [], _ => none
  | _ :: fs, c :: rest =>
    if c == '\x7d' && startsWithL id ("</script>").data (rest.dropWhile jsWhitespace) then
      some ((rest.dropWhile jsWhitespace).drop 9)
    else findCloseScript fs rest

/-- Optional trailing `\n?` of the schema-strip pattern. -/
def dropOneNl : List Char → List Char
  | '\n' :: t => t
  | l => l

/-- One pass of
`/\s*<script type="application\/ld\+json">\s*\{[\s\S]*?"@type":\s*"FAQPage"[\s\S]*?\}\s*<\/script>\n?/g`
(→ `''`).  A match starts at the whitespace run before any ld+json script
opener whose `{` body is followed, anywhere later, by `"@type": "FAQPage"`
and then by a `}` + `</script>`; the first lazy continuations win, and
failure of the later parts cannot be repaired by expanding the lazy
quantifiers further (later continuation points only shrink the search
space), so the engine then abandons this start position. -/
def stripFaqSchemaGo : List Char → List Char → List Char
  | _, [] => []
  | [], l => l
  | _ :: fs, c :: rest =>
    let a1 := (c :: rest).dropWhile jsWhitespace
    if startsWithL id ("<script type=\"application/ld+json\">").data a1 then
      match (a1.drop 35).dropWhile jsWhitespace with
      | '\x7b' :: a3 =>
        match findTypeFaq a3 a3 with
        | some a4 =>
          match findCloseScript a4 a4 with
          | some a5 => stripFaqSchemaGo fs (dropOneNl a5)
          | none => c :: stripFaqSchemaGo fs rest
        | none => c :: stripFaqSchemaGo fs rest
      | _ => c :: stripFaqSchemaGo fs rest
    else c :: stripFaqSchemaGo fs rest

/-- Remove all existing FAQPage schema scripts. -/
def stripFaqSchema (l : List Char) : List Char :=
  stripFaqSchemaGo l l

/-- `stripExistingFaq(html)`: visible blocks first, then schema blocks. -/
def stripExistingFaq (html : String) : String :=
  ⟨stripFaqSchema (stripFaqSections html.data)⟩

/-! ## Page rewrite (`injectFaq`, lines 160-200) and the batch loop
(`run`, lines 202-241) -/

/-- Result record of `injectFaq`: `{ html, injected }`. -/
structure InjectResult where
  html : String
  injected : Bool
deriving DecidableEq

/-- Article-content capture:
`html.match(/<article[^>]*>([\s\S]*?)<\/article>/)` (case-sensitive). -/
def articleContentOf (html : List Char) : Option (List Char) :=
  (tagMatch id ("<article").data ("</article>").data html).map Prod.fst

/-- Sections the pipeline extracts from a page: strip any existing FAQ
content first, then extract from the article container (none ⇒ no
sections). -/
def sectionsOfPage (html : String) : List Section :=
  match articleContentOf (stripExistingFaq html).data with
  | none => []
  | some content => extractH2Sections content

/-- The `qaPairs` array the source builds when it injects: the first five
sections, each heading classified. -/
def qaPairsOf (html category : String) : List QAPair :=
  ((sectionsOfPage html).take 5).map
    (fun s => ⟨headingToQuestion s.heading category, s.answer⟩)

/-- QAPairs that actually reach the output: empty when the article
container is missing or fewer than 3 sections were extracted (the page
is then skipped), the built `qaPairs` otherwise. -/
def placedQaPairs (html category : String) : List QAPair :=
  if (sectionsOfPage html).length < 3 then [] else qaPairsOf html category

/-- The FAQ schema `<script>` tag template
``  <script type="application/ld+json">\n  ${faqSchema}\n  </script>\n``. -/
def faqSchemaTag (schema : List Char) : List Char :=
  ("  <script type=\"application/ld+json\">\n  ").data ++ schema ++
  ("\n  </script>\n").data

/-- `injectFaq(html, category, slug)`: strip existing FAQ content, find
the article container, extract sections, stop below the 3-section
threshold, then splice the visible block before `</article>` and the
schema tag before `</head>`.  (The source's `schemaInsertPoint` local is
dead code and has no effect.) -/
def injectFaq (html category slug : String) : InjectResult :=
  let stripped := stripExistingFaq html
  match articleContentOf stripped.data with
  | none => ⟨stripped, false⟩
  | some content =>
    let sections := extractH2Sections content
    if sections.length < 3 then ⟨stripped, false⟩
    else
      let qaPairs := (sections.take 5).map
        (fun s => QAPair.mk (headingToQuestion s.heading category) s.answer)
      let faqHtml := buildFaqHtml qaPairs
      let url := ("https://creatinepedia.com/").data ++ category.data ++ ("/").data ++ slug.data
      let faqSchema := buildFaqSchema qaPairs url
      let h1 := replaceFirstL ("</article>").data
        (faqHtml ++ ("\n      </article>").data) stripped.data
      let h2 := replaceFirstL ("</head>").data
        (faqSchemaTag faqSchema ++ ("</head>").data) h1
      ⟨⟨h2⟩, true⟩

/-- The write decision of the `run` loop body for one file: `some` new
content when `injected` is true (the file is overwritten with it),
`none` when the page was skipped (the file is untouched). -/
def processFile (html category slug : String) : Option String :=
  let r := injectFaq html category slug
  if r.injected then some r.html else none

/-- `file.replace('.html', '')`. -/
def slugOf (name : String) : String :=
  ⟨replaceFirstL (".html").data [] name.data⟩

instance {ε α : Type} [DecidableEq ε] [DecidableEq α] : DecidableEq (Except ε α) := fun a b =>
  match a, b with
  | Except.ok x, Except.ok y =>
    if h : x = y then Decidable.isTrue (by rw [h])
    else Decidable.isFalse (by intro hh; cases hh; exact h rfl)
  | Except.error x, Except.error y =>
    if h : x = y then Decidable.isTrue (by rw [h])
    else Decidable.isFalse (by intro hh; cases hh; exact h rfl)
  | Except.ok _, Except.error _ => Decidable.isFalse (by intro hh; cases hh)
  | Except.error _, Except.ok _ => Decidable.isFalse (by intro hh; cases hh)

/-- One file of the batch, with its environment interactions reified:
the result of `fs.readFileSync` (which the source calls OUTSIDE the
`try` block) and the result of `fs.writeFileSync` (inside the `try`). -/
structure FileJob where
  name : String
  readResult : Except String String
  writeResult : Except String Unit
deriving DecidableEq

/-- Read succeeded. -/
def readOk (j : FileJob) : Bool :=
  match j.readResult with
  | Except.ok _ => true
  | Except.error _ => false

/-- Accumulated state of the `run` loop over one directory. -/
structure RunState where
  written : List (String × String)
  count : Nat
  skipped : Nat
  errors : List String
deriving DecidableEq

/-- The per-directory file loop of `run`.  The read happens before the
`try`, so a read exception escapes as `Except.error` and aborts the
whole batch; exceptions inside the `try` (here: the write) are caught,
their message is appended as `` `${dir}/${file}: ${e.message}` `` to the
error list, and the loop continues. -/
def processFiles (category : String) : List FileJob → RunState → Except String RunState
  | [], st => Except.ok st
  | j :: rest, st =>
    match j.readResult with
    | Except.error e => Except.error e
    | Except.ok html =>
      let r := injectFaq html category (slugOf j.name)
      if r.injected then
        match j.writeResult with
        | Except.ok _ =>
          processFiles category rest
            { st with written := st.written ++ [(j.name, r.html)], count := st.count + 1 }
        | Except.error e =>
          processFiles category rest
            { st with errors := st.errors ++ [category ++ "/" ++ j.name ++ ": " ++ e] }
      else processFiles category rest { st with skipped := st.skipped + 1 }

/-! ## Concrete pages used as inputs -/

/-- A representative unprocessed page: head with title and an Article
JSON-LD schema script (as the repository's page templates emit), an
article with three qualifying H2 sections. -/
def page1 : String :=
  "<!DOCTYPE html>\n<html>\n<head>\n<title>Creatine Guide</title>\n  <script type=\"application/ld+json\">\n  \x7b\n    \"@type\": \"Article\",\n    \"headline\": \"Creatine Guide\"\n  \x7d\n  </script>\n</head>\n<body>\n<article>\n<h2>Benefits of Creatine</h2>\n<p>Creatine improves strength and power output in trained athletes.</p>\n<h2>Creatine Dosage Levels</h2>\n<p>Take three to five grams of creatine monohydrate every single day.</p>\n<h2>Creatine Safety Profile</h2>\n<p>Creatine is considered safe for healthy adults at standard doses.</p>\n</article>\n</body>\n</html>\n"

/-- A page whose article yields exactly two qualifying sections. -/
def page2 : String :=
  "<html>\n<head>\n<title>Two Sections</title>\n</head>\n<body>\n<article>\n<h2>Benefits of Creatine</h2>\n<p>Creatine improves strength and power output in trained athletes.</p>\n<h2>Creatine Safety Profile</h2>\n<p>Creatine is considered safe for healthy adults at standard doses.</p>\n</article>\n</body>\n</html>\n"

/-- Per-block section builder: processing of ONE raw H2 match, exactly as
the loop body does it — strip and trim the heading markup, drop
references/bibliography/sources/citations and FAQ headings, take only
the FIRST paragraph of the captured content as the candidate answer,
strip and trim it, and emit a `Section` exactly when a paragraph exists
and the stripped answer is strictly longer than 30 characters. -/
def sectionOfBlock (b : List Char × List Char) : Option Section :=
  let heading := jsTrim (stripTags b.1)
  if bannedRef heading then none
  else if bannedFaq heading then none
  else
    match firstPara b.2 with
    | none => none
    | some para =>
      let answer := jsTrim (stripTags para)
      if 30 < answer.length then some ⟨⟨heading⟩, ⟨answer⟩⟩ else none

/-- Fresh loop state (`total/skipped/errors` all zero/empty). -/
def initState : RunState :=
  ⟨[], 0, 0, []⟩

/-- A file whose read throws (e.g. a permission error). -/
def jobBadRead : FileJob :=
  ⟨"bad.html", Except.error "EACCES: permission denied", Except.ok ()⟩

/-- A readable, writable file whose content is `page1`. -/
def jobGood : FileJob :=
  ⟨"good.html", Except.ok page1, Except.ok ()⟩

/-- A readable file whose write throws. -/
def jobBadWrite : FileJob :=
  ⟨"locked.html", Except.ok page1, Except.error "EROFS: read-only file system"⟩

/-! ## Helper lemmas -/

lemma startsWithL_le {norm : Char → Char} :
    ∀ {pat s : List Char}, startsWithL norm pat s = true → pat.length ≤ s.length := by
  intro pat
  induction pat with
  | nil => intro s _; exact Nat.zero_le _
  | cons p ps ih =>
    intro s h
    cases s with
    | nil => simp [startsWithL] at h
    | cons c cs =>
      simp only [startsWithL, Bool.and_eq_true] at h
      simpa [List.length_cons] using Nat.succ_le_succ (ih h.2)

lemma splitFirstGo_length {norm : Char → Char} {pat : List Char} :
    ∀ {s acc b a : List Char}, splitFirstGo norm pat acc s = some (b, a) →
      a.length + pat.length ≤ s.length := by
  intro s
  induction s with
  | nil => intro acc b a h; simp [splitFirstGo] at h
  | cons c rest ih =>
    intro acc b a h
    rw [splitFirstGo] at h
    by_cases hs : startsWithL norm pat (c :: rest) = true
    · rw [if_pos hs] at h
      have hle : pat.length ≤ (c :: rest).length := startsWithL_le hs
      cases h
      simp only [List.length_drop]
      omega
    · rw [if_neg hs] at h
      have := ih h
      simp only [List.length_cons]
      omega

lemma splitFirstL_length {norm : Char → Char} {pat s b a : List Char}
    (h : splitFirstL norm pat s = some (b, a)) :
    a.length + pat.length ≤ s.length :=
  splitFirstGo_length h

lemma dropWhile_len_le (p : Char → Bool) (l : List Char) :
    (l.dropWhile p).length ≤ l.length := by
  induction l with
  | nil => simp
  | cons c rest ih =>
    by_cases h : p c = true
    · simp only [List.dropWhile_cons, h, if_true]
      exact Nat.le_succ_of_le ih
    · simp [List.dropWhile_cons, h]

lemma tagMatch_length {norm : Char → Char} {openLit closeLit s g1 rest : List Char}
    (hopen : openLit ≠ []) (h : tagMatch norm openLit closeLit s = some (g1, rest)) :
    rest.length < s.length := by
  unfold tagMatch at h
  cases hsp : splitFirstL norm openLit s with
  | none => rw [hsp] at h; cases h
  | some p =>
    obtain ⟨b1, afterOpen⟩ := p
    rw [hsp] at h
    simp only at h
    cases hdw : afterOpen.dropWhile (fun d => !(d == '>')) with
    | nil => rw [hdw] at h; cases h
    | cons d afterGt =>
      rw [hdw] at h
      simp only at h
      cases hsc : splitFirstL norm closeLit afterGt with
      | none => rw [hsc] at h; cases h
      | some q =>
        obtain ⟨g1x, restx⟩ := q
        rw [hsc] at h
        cases h
        have h1 := splitFirstL_length hsp
        have h2 := splitFirstL_length hsc
        have h3 : afterGt.length < afterOpen.length := by
          have hx := dropWhile_len_le (fun d => !(d == '>')) afterOpen
          rw [hdw] at hx
          simp only [List.length_cons] at hx
          omega
        have h4 : 1 ≤ openLit.length := by
          cases openLit with
          | nil => exact absurd rfl hopen
          | cons _ _ => simp
        omega

lemma splitBoundaryGo_snd_le (s : List Char) :
    ∀ acc, (splitBoundaryGo acc s).2.length ≤ s.length := by
  induction s with
  | nil => intro acc; simp [splitBoundaryGo]
  | cons c rest ih =>
    intro acc
    by_cases h : h2Boundary (c :: rest) = true
    · simp [splitBoundaryGo, h]
    · simp only [splitBoundaryGo, h, Bool.false_eq_true, if_false]
      exact Nat.le_succ_of_le (ih _)

lemma splitBoundary_snd_le (s : List Char) : (splitBoundary s).2.length ≤ s.length :=
  splitBoundaryGo_snd_le s []

lemma lowerChar_eq_or (c : Char) : lowerChar c = c ∨ (c, lowerChar c) ∈ asciiCase := by
  unfold lowerChar
  split
  · exact Or.inl rfl
  · split
    · exact Or.inl rfl
    · cases hf : asciiCase.find? (fun p => p.1 == c) with
      | none => exact Or.inl rfl
      | some p =>
        right
        have hmem : p ∈ asciiCase := List.mem_of_find?_eq_some hf
        have hpred := List.find?_some hf
        simp only [beq_iff_eq] at hpred
        obtain ⟨p1, p2⟩ := p
        simpa [← hpred] using hmem

lemma jsWhitespace_lowerChar (c : Char) : jsWhitespace (lowerChar c) = jsWhitespace c := by
  rcases lowerChar_eq_or c with h | h
  · rw [h]
  · have hall : ∀ q ∈ asciiCase, jsWhitespace q.2 = jsWhitespace q.1 := by decide
    exact hall (c, lowerChar c) h

lemma lowerChar_qmark {c : Char} (h : lowerChar c = '?') : c = '?' := by
  rcases lowerChar_eq_or c with hh | hh
  · rw [← hh]; exact h
  · have hall : ∀ q ∈ asciiCase, q.2 ≠ '?' := by decide
    exact absurd h (hall (c, lowerChar c) hh)

lemma dosingExcl_vocab {h : List Char} (hx : dosingExcl h = true) : dosingVocab h = true := by
  unfold dosingExcl at hx
  unfold dosingVocab
  simp only [Bool.or_eq_true] at hx ⊢
  tauto

/-- Every branch of the classifier other than rule 1 returns a string
that ends in `?`. -/
lemma getLast?_append_q (l t : List Char) (ht : t.getLast? = some '?') :
    (l ++ t).getLast? = some '?' := by
  have hne : t ≠ [] := by
    intro he
    rw [he] at ht
    simp at ht
  rw [List.getLast?_append_of_ne_nil l hne, ht]

/-- If the heading is nonempty and does not end in whitespace, then the
lowercased trimmed heading ends with the lowercased last character of the
heading. -/
lemma lowerTrim_getLast {l : List Char} {c : Char}
    (hl : l.getLast? = some c) (hw : jsWhitespace c = false) :
    (lowerTrim l).getLast? = some (lowerChar c) := by
  obtain ⟨l', rfl⟩ := List.getLast?_eq_some_iff.mp hl
  unfold lowerTrim jsTrim
  rw [List.getLast?_reverse]
  have hmap : (l' ++ [c]).map lowerChar = l'.map lowerChar ++ [lowerChar c] := by
    simp
  rw [hmap, List.dropWhile_append]
  have hcw : jsWhitespace (lowerChar c) = false := by
    rw [jsWhitespace_lowerChar]; exact hw
  by_cases he : ((l'.map lowerChar).dropWhile jsWhitespace).isEmpty
  · rw [if_pos he]
    simp [List.dropWhile_cons, hcw]
  · rw [if_neg he]
    rw [List.reverse_append]
    simp only [List.reverse_cons, List.reverse_nil, List.nil_append, List.singleton_append,
      List.dropWhile_cons, hcw, Bool.false_eq_true, if_false]
    rfl

/-! ## Claims about the heading classifier -/

/-- Claim C9 (confirmed): the classifier is deterministic and depends only
on the heading text — two calls of `headingToQuestion` with the same
heading string return identical output regardless of the category
argument (the source never reads `category`). -/
theorem headingToQuestion_deterministic (heading c1 c2 : String) :
    headingToQuestion heading c1 = headingToQuestion heading c2 := rfl

/-- Claim C2, counterexample: the heading `"Dosing and Timing Strategies"`
is routed to the plural-vocabulary rule (it contains the word
`strategies`), not to the dosing rule: the classifier answers
`"What are the dosing and timing strategies?"`, not
`"What is the recommended dosing and timing strategies?"`.  The claim's
general clause also fails: `"Creatine and Timing"` contains `and` plus
dosing vocabulary (`timing`) and matches no earlier rule, yet rule 7
fires (its exclusion does not cover `timing`), producing the
relationship form instead of the rule-8 form. -/
theorem headingToQuestion_dosingAndTiming_cex :
    headingToQuestion "Dosing and Timing Strategies" "dosing" =
        "What are the dosing and timing strategies?" ∧
      headingToQuestion "Dosing and Timing Strategies" "dosing" ≠
        "What is the recommended dosing and timing strategies?" ∧
      headingToQuestion "Creatine and Timing" "dosing" =
        "What is the relationship between creatine and timing?" :=
  ⟨by decide, by decide, by decide⟩

/-- Claim C2, amended: `"Dosing and Timing Strategies"` hits the earlier
plural rule; the rule-8 form `"What is the recommended {cleaned}?"` is
produced exactly by headings that fail rules 1-6, contain the word
`and`, and contain the rule-7 exclusion vocabulary dosing/dose/protocol
(which is also rule-8 vocabulary, so rule 8 then fires). -/
theorem headingToQuestion_rule8 :
    headingToQuestion "Dosing and Timing Strategies" "dosing" =
        "What are the dosing and timing strategies?" ∧
      ∀ heading category : String,
        endsWithQ (lowerTrim heading.data) = false →
        startsInterrogative (lowerTrim heading.data) = false →
        vsTest (lowerTrim heading.data) = false →
        actionTest (lowerTrim heading.data) = false →
        pluralTest (lowerTrim heading.data) = false →
        andTest (lowerTrim heading.data) = true →
        dosingExcl (lowerTrim heading.data) = true →
        (headingToQuestion heading category).data =
          ("What is the recommended ").data ++ cleanedLower heading.data ++ ("?").data := by
  refine ⟨by decide, ?_⟩
  intro heading category h1 h2 h3 h4 h5 h6 h7
  have h8 : dosingVocab (lowerTrim heading.data) = true := dosingExcl_vocab h7
  show headingToQuestionL heading.data =
    ("What is the recommended ").data ++ cleanedLower heading.data ++ ("?").data
  unfold headingToQuestionL
  simp only [h1, h2, h3, h4, h5, h6, h7, h8, Bool.not_true, Bool.and_false,
    Bool.false_eq_true, if_false, if_true]

/-- Claim C2, witness: a heading that reaches rule 8. -/
theorem headingToQuestion_rule8_witness :
    (headingToQuestion "Creatine Dosing and Meals" "dosing").data =
      ("What is the recommended ").data ++
        cleanedLower ("Creatine Dosing and Meals").data ++ ("?").data :=
  headingToQuestion_rule8.2 "Creatine Dosing and Meals" "dosing"
    (by decide) (by decide) (by decide) (by decide) (by decide) (by decide) (by decide)

/-- Claim C3, counterexample: for `"The How It Works"` the cleaned form
`"how it works"` begins with an interrogative word, yet the classifier
does not return the original heading with `?` appended — the source
applies the interrogative test to the lowercased trimmed ORIGINAL
heading (`h`), not to the cleaned form. -/
theorem headingToQuestion_interrogative_cex :
    startsInterrogative (cleanedLower ("The How It Works").data) = true ∧
      headingToQuestion "The How It Works" "science" ≠ "The How It Works?" ∧
      headingToQuestion "The How It Works" "science" = "What is the how it works?" :=
  ⟨by decide, by decide, by decide⟩

/-- Claim C3, amended: when the heading does not already end with `?` and
the lowercased trimmed ORIGINAL heading begins with an interrogative
word followed by whitespace, the classifier returns the original heading
with `?` appended. -/
theorem headingToQuestion_interrogative (heading category : String)
    (h1 : endsWithQ (lowerTrim heading.data) = false)
    (h2 : startsInterrogative (lowerTrim heading.data) = true) :
    (headingToQuestion heading category).data = heading.data ++ ("?").data := by
  show headingToQuestionL heading.data = heading.data ++ ("?").data
  unfold headingToQuestionL
  simp only [h1, h2, Bool.false_eq_true, if_false, if_true]

/-- Claim C3, witness: a heading that starts with an interrogative word. -/
theorem headingToQuestion_interrogative_witness :
    (headingToQuestion "How Creatine Works" "science").data =
      ("How Creatine Works").data ++ ("?").data :=
  headingToQuestion_interrogative "How Creatine Works" "science" (by decide) (by decide)

/-- Claim C4, counterexample: `"Why? "` is a non-empty heading for which
the classifier's answer does not end in `?` — rule 1 tests the trimmed
lowercased heading but returns the UNTRIMMED original, so a heading
ending in `"? "` comes back with a trailing space. -/
theorem headingToQuestion_total_cex :
    ("Why? ").data ≠ ([] : List Char) ∧
      (headingToQuestion "Why? " "science").data.getLast? ≠ some '?' :=
  ⟨by decide, by decide⟩

/-- Claim C4, amended: for every non-empty heading whose last character is
not whitespace, the classifier returns a non-empty string ending in `?`. -/
theorem headingToQuestion_total (heading category : String)
    (h : lastNotWs heading.data = true) :
    (headingToQuestion heading category).data ≠ [] ∧
      (headingToQuestion heading category).data.getLast? = some '?' := by
  obtain ⟨c, hc, hw⟩ : ∃ c, heading.data.getLast? = some c ∧ jsWhitespace c = false := by
    unfold lastNotWs at h
    cases hg : heading.data.getLast? with
    | none => rw [hg] at h; cases h
    | some c =>
      rw [hg] at h
      exact ⟨c, rfl, by simpa using h⟩
  show headingToQuestionL heading.data ≠ [] ∧
    (headingToQuestionL heading.data).getLast? = some '?'
  unfold headingToQuestionL
  by_cases hq : endsWithQ (lowerTrim heading.data) = true
  · -- rule 1: the original heading is returned; its trimmed lowercased
    -- form ends in '?', and since the last character survives the trim,
    -- the original heading itself ends in '?'.
    have hlast : (lowerTrim heading.data).getLast? = some (lowerChar c) :=
      lowerTrim_getLast hc hw
    unfold endsWithQ at hq
    rw [hlast] at hq
    simp only [beq_iff_eq, Option.some.injEq] at hq
    have hcq : c = '?' := lowerChar_qmark hq
    subst hcq
    rw [if_pos (by unfold endsWithQ; rw [hlast]; simp [hq])]
    constructor
    · intro he
      rw [he] at hc
      simp at hc
    · exact hc
  · rw [if_neg hq]
    have hne : ∀ l t : List Char, t.getLast? = some '?' → l ++ t ≠ [] := by
      intro l t ht he
      rcases List.append_eq_nil.mp he with ⟨-, rfl⟩
      simp at ht
    split
    · exact ⟨hne heading.data ("?").data (by decide),
        getLast?_append_q heading.data ("?").data (by decide)⟩
    · split
      · exact ⟨by simp, by
          rw [List.append_assoc]
          exact getLast?_append_q _ _ (getLast?_append_q _ _ (by decide))⟩
      · split
        · exact ⟨by simp, by
            rw [List.append_assoc]
            exact getLast?_append_q _ _ (getLast?_append_q _ _ (by decide))⟩
        · split
          · exact ⟨by simp, by
              rw [List.append_assoc]
              exact getLast?_append_q _ _ (getLast?_append_q _ _ (by decide))⟩
          · split
            · exact ⟨by simp, by
                rw [List.append_assoc]
                exact getLast?_append_q _ _ (getLast?_append_q _ _ (by decide))⟩
            · split
              · exact ⟨by simp, by
                  rw [List.append_assoc]
                  exact getLast?_append_q _ _ (getLast?_append_q _ _ (by decide))⟩
              · split
                · exact ⟨by simp, by
                    rw [List.append_assoc]
                    exact getLast?_append_q _ _ (getLast?_append_q _ _ (by decide))⟩
                · exact ⟨by simp, by
                    rw [List.append_assoc]
                    exact getLast?_append_q _ _ (getLast?_append_q _ _ (by decide))⟩

/-- Claim C4, witness: a concrete well-formed heading. -/
theorem headingToQuestion_total_witness :
    (headingToQuestion "Creatine Dosage Levels" "dosing").data ≠ [] ∧
      (headingToQuestion "Creatine Dosage Levels" "dosing").data.getLast? = some '?' :=
  headingToQuestion_total "Creatine Dosage Levels" "dosing" (by decide)

/-! ## Claims about the pipeline -/

set_option maxRecDepth 40000

/-- Claim C1 (code bug): re-running the pipeline on a page produced by a
first run is NOT byte-idempotent.  On `page1` — shaped like the
repository's page templates, with an Article JSON-LD script in the head
— the first `injectFaq` output still carries the Article schema, but the
second run's `stripExistingFaq` matches its schema pattern starting at
the Article script (the lazy `"@type": "FAQPage"` search only succeeds
inside the LATER injected FAQ script) and deletes everything between the
two scripts, so the second output loses the Article schema block and
differs from the first. -/
theorem injectFaq_not_idempotent :
    containsL id ("\"@type\": \"Article\"").data
        (injectFaq page1 "science" "creatine-guide").html.data = true ∧
      containsL id ("\"@type\": \"Article\"").data
        (injectFaq (injectFaq page1 "science" "creatine-guide").html
          "science" "creatine-guide").html.data = false ∧
      (injectFaq (injectFaq page1 "science" "creatine-guide").html
          "science" "creatine-guide").html ≠
        (injectFaq page1 "science" "creatine-guide").html :=
  ⟨by decide, by decide, by decide⟩

/-- Claim C5, counterexample: on a page with exactly 2 extracted sections
nothing is placed into the output, so the number of placed QAPairs (0)
is not `min(extracted, 5)` (= 2). -/
theorem placedQaPairs_min_cex :
    (sectionsOfPage page2).length = 2 ∧
      (placedQaPairs page2 "science").length ≠ min (sectionsOfPage page2).length 5 :=
  ⟨by decide, by decide⟩

/-- Claim C5, amended: below the 3-section threshold no QAPairs are
placed (and the page is not injected); at or above it the page is
injected, the placed QAPairs are exactly the first `min(extracted, 5)`
sections in document order with classified headings, and the output page
is the stripped input with the visible block and the schema block built
from EXACTLY those pairs spliced in before `</article>` and `</head>`. -/
theorem placedQaPairs_spec (html category slug : String) :
    ((sectionsOfPage html).length < 3 →
        placedQaPairs html category = [] ∧
          (injectFaq html category slug).injected = false) ∧
      (3 ≤ (sectionsOfPage html).length →
        (injectFaq html category slug).injected = true ∧
          (placedQaPairs html category).length = min (sectionsOfPage html).length 5 ∧
          placedQaPairs html category =
            ((sectionsOfPage html).take 5).map
              (fun s => ⟨headingToQuestion s.heading category, s.answer⟩) ∧
          (injectFaq html category slug).html.data =
            replaceFirstL ("</head>").data
              (faqSchemaTag (buildFaqSchema (placedQaPairs html category)
                  (("https://creatinepedia.com/").data ++ category.data ++
                    ("/").data ++ slug.data)) ++ ("</head>").data)
              (replaceFirstL ("</article>").data
                (buildFaqHtml (placedQaPairs html category) ++ ("\n      </article>").data)
                (stripExistingFaq html).data)) := by
  cases ha : articleContentOf (stripExistingFaq html).data with
  | none =>
    simp only [placedQaPairs, qaPairsOf, sectionsOfPage, injectFaq, ha, List.length_nil]
    constructor
    · intro _
      exact ⟨by simp, trivial⟩
    · intro h3
      omega
  | some content =>
    simp only [placedQaPairs, qaPairsOf, sectionsOfPage, injectFaq, ha]
    by_cases hlt : (extractH2Sections content).length < 3
    · simp only [if_pos hlt]
      constructor
      · intro _
        exact ⟨by trivial, by trivial⟩
      · intro h3
        omega
    · simp only [if_neg hlt]
      constructor
      · intro hx
        omega
      · intro _
        refine ⟨by trivial, ?_, by trivial, by trivial⟩
        simp only [List.length_map, List.length_take]
        omega

/-- Claim C5, witness: on `page1` (3 sections) the injection happens and
places `min(3, 5) = 3` pairs, the three sections in order. -/
theorem placedQaPairs_spec_witness :
    (injectFaq page1 "science" "creatine-guide").injected = true ∧
      (placedQaPairs page1 "science").length = min (sectionsOfPage page1).length 5 ∧
      placedQaPairs page1 "science" =
        ((sectionsOfPage page1).take 5).map
          (fun s => ⟨headingToQuestion s.heading "science", s.answer⟩) :=
  let h := (placedQaPairs_spec page1 "science" "creatine-guide").2 (by decide)
  ⟨h.1, h.2.1, h.2.2.1⟩

/-- Claim C6 (confirmed): a file is written only when the (stripped)
page has an article container and at least 3 extracted sections;
otherwise `injectFaq` reports `injected = false`, the loop performs no
write, and the on-disk content stays byte-identical. -/
theorem processFile_threshold (html category slug : String) :
    (processFile html category slug).isNone = decide ((sectionsOfPage html).length < 3) ∧
      (injectFaq html category slug).injected = decide (3 ≤ (sectionsOfPage html).length) := by
  cases ha : articleContentOf (stripExistingFaq html).data with
  | none =>
    simp [processFile, injectFaq, sectionsOfPage, ha]
  | some content =>
    simp only [processFile, injectFaq, sectionsOfPage, ha]
    by_cases hlt : (extractH2Sections content).length < 3
    · rw [if_pos hlt]
      have h2 : ¬ 3 ≤ (extractH2Sections content).length := by omega
      simp [hlt, h2]
    · rw [if_neg hlt]
      have h2 : 3 ≤ (extractH2Sections content).length := by omega
      simp [hlt, h2]

/-- Claim C7, counterexample: the `fs.readFileSync` call sits OUTSIDE the
`try` block, so a read exception is not caught: it aborts the whole
batch (the following readable file is never processed). -/
theorem processFiles_read_abort :
    processFiles "science" [jobBadRead, jobGood] initState =
      Except.error "EACCES: permission denied" := rfl

/-- Claim C7, amended: exceptions raised INSIDE the per-file `try` block
(the transform and the file write) are caught, their messages are
appended to the error list, and the batch continues through all files;
only a read failure escapes. -/
theorem processFiles_catches_try_errors (category : String) :
    ∀ (jobs : List FileJob) (st : RunState), jobs.all readOk = true →
      ∃ st2 newErrs, processFiles category jobs st = Except.ok st2 ∧
        st2.errors = st.errors ++ newErrs := by
  intro jobs
  induction jobs with
  | nil =>
    intro st _
    exact ⟨st, [], rfl, by simp⟩
  | cons j rest ih =>
    intro st h
    simp only [List.all_cons, Bool.and_eq_true] at h
    obtain ⟨h1, h2⟩ := h
    cases hr : j.readResult with
    | error e =>
      exfalso
      unfold readOk at h1
      rw [hr] at h1
      simp at h1
    | ok html =>
      unfold processFiles
      rw [hr]
      simp only
      by_cases hinj : (injectFaq html category (slugOf j.name)).injected = true
      · rw [if_pos hinj]
        cases hw : j.writeResult with
        | ok u =>
          obtain ⟨st2, errs, heq, herrs⟩ := ih _ h2
          exact ⟨st2, errs, heq, by simpa using herrs⟩
        | error e =>
          obtain ⟨st2, errs, heq, herrs⟩ := ih _ h2
          refine ⟨st2, (category ++ "/" ++ j.name ++ ": " ++ e) :: errs, heq, ?_⟩
          rw [herrs]
          simp
      · rw [if_neg hinj]
        obtain ⟨st2, errs, heq, herrs⟩ := ih _ h2
        exact ⟨st2, errs, heq, by simpa using herrs⟩

/-- Claim C7, witness: a batch with a write failure and a good file still
completes with `Except.ok`, collecting errors. -/
theorem processFiles_catches_try_errors_witness :
    ∃ st2 newErrs,
      processFiles "science" [jobBadWrite, jobGood] initState = Except.ok st2 ∧
        st2.errors = initState.errors ++ newErrs :=
  processFiles_catches_try_errors "science" [jobBadWrite, jobGood] initState (by decide)

/-- Generalised loop-body decomposition: with sufficient fuel the
extractor equals the raw H2 scan filtered through the per-block section
builder. -/
lemma extractGo_eq_filterMap :
    ∀ (fuel html : List Char), html.length ≤ fuel.length →
      extractGo fuel html = (h2ScanGo fuel html).filterMap sectionOfBlock := by
  intro fuel
  induction fuel with
  | nil =>
    intro html h
    have : html = [] := List.eq_nil_of_length_eq_zero (Nat.le_zero.mp h)
    subst this
    rfl
  | cons f fs ih =>
    intro html h
    simp only [extractGo, h2ScanGo]
    cases htm : tagMatch lowerChar ("<h2").data ("</h2>").data html with
    | none => simp
    | some p =>
      obtain ⟨g1, afterClose⟩ := p
      simp only [List.filterMap_cons, sectionOfBlock]
      have hlen : (splitBoundary afterClose).2.length ≤ fs.length := by
        have h1 := tagMatch_length (by decide) htm
        have h2 := splitBoundary_snd_le afterClose
        simp only [List.length_cons] at h
        omega
      have ihx := ih (splitBoundary afterClose).2 hlen
      by_cases hbr : bannedRef (jsTrim (stripTags g1)) = true
      · rw [if_pos hbr, if_pos hbr]
        exact ihx
      · rw [if_neg hbr, if_neg hbr]
        by_cases hbf : bannedFaq (jsTrim (stripTags g1)) = true
        · rw [if_pos hbf, if_pos hbf]
          exact ihx
        · rw [if_neg hbf, if_neg hbf]
          cases hfp : firstPara (splitBoundary afterClose).1 with
          | none => exact ihx
          | some para =>
            rw [ihx]
            by_cases hlen30 : 30 < (jsTrim (stripTags para)).length
            · simp [hlen30]
            · simp [hlen30]

/-- Claim C8 (confirmed): the extractor is exactly the raw H2 scan
followed, per retained heading, by: take only the FIRST paragraph of the
captured content as candidate answer, strip markup from heading and
answer, and emit a `Section` exactly when a paragraph exists and the
stripped answer is strictly longer than 30 characters
(see `sectionOfBlock`). -/
theorem extractH2Sections_eq_filterMap (articleHtml : List Char) :
    extractH2Sections articleHtml = (h2Scan articleHtml).filterMap sectionOfBlock :=
  extractGo_eq_filterMap articleHtml articleHtml (Nat.le_refl _)

/-- Every section the extractor emits has a heading that passes both drop
tests (independent of the fuel supplied). -/
lemma extractGo_headings_ok (fuel : List Char) :
    ∀ html : List Char,
      (extractGo fuel html).all
        (fun s => !bannedRef s.heading.data && !bannedFaq s.heading.data) = true := by
  induction fuel with
  | nil => intro html; rfl
  | cons f fs ih =>
    intro html
    simp only [extractGo]
    split
    · rfl
    · split
      · exact ih _
      · split
        · exact ih _
        · rename_i hbr hbf
          simp only [Bool.not_eq_true] at hbr hbf
          split
          · exact ih _
          · split
            · rename_i h30
              simp [hbr, hbf, ih _]
            · exact ih _

/-- Claim C10 (confirmed): the drop tests are case-insensitive substring
matches, so no extracted section's heading contains (case-insensitively)
`references`, `bibliography`, `sources`, `citations`, `frequently asked`
or `faq` — and a heading that merely contains one as part of a longer
word, such as `Resources` (which contains `sources`), yields no Section
even when its paragraph qualifies. -/
theorem extract_no_banned_headings :
    (∀ html : List Char,
        (extractH2Sections html).all
          (fun s => !bannedRef s.heading.data && !bannedFaq s.heading.data) = true) ∧
      extractH2Sections
        ("<h2>Resources</h2><p>Useful links and further reading material for creatine research.</p>").data = [] :=
  ⟨fun html => extractGo_headings_ok html html, by decide⟩
